import Mathlib

/-!
Shallow embedding of the UniStake backend's core ledger operations
(src/index.js, together with the two earlier revisions of the same server
kept in src/unnamed/part_000): trade placement (POST /api/bet), market
settlement (POST /api/resolve) and the read-only payout projection
(GET /api/bets).

Modelling choices:
* Money amounts (JS floating-point "KES" decimals) are modelled as exact
  rationals; the spec's "within rounding tolerance" becomes exact equality.
* Database rows are lists of records; the SQL UPDATE/INSERT/SELECT
  statements become list map/filter/append operations.
* Every handler runs inside BEGIN/COMMIT with ROLLBACK on any thrown
  error, so a failing run is `Except.error e`: no intermediate write
  survives and the pre-call state is unchanged by construction.
* `parseFloat(x || 0)` on pool columns is modelled by storing the pools
  directly as rationals (the NULL-coalescing default is the value 0).
-/

namespace UniStake

structure User where
  id : Nat
  email : String
  balance : ℚ
deriving DecidableEq

structure Market where
  id : Nat
  optionA : String
  optionB : String
  poolA : ℚ
  poolB : ℚ
  isResolved : Bool
  winningOption : String
  category : String
  creatorId : Option Nat
deriving DecidableEq

structure Bet where
  id : Nat
  userId : Nat
  marketId : Nat
  chosenOption : String
  amount : ℚ
deriving DecidableEq

structure Thesis where
  id : Nat
  betId : Nat
  userId : Nat
  marketId : Nat
  content : String
deriving DecidableEq

structure DB where
  users : List User
  markets : List Market
  bets : List Bet
  theses : List Thesis
deriving DecidableEq

/-- The failure outcomes thrown by the embedded handlers.
`userNotFound` = 'User not found.'; `insufficientFunds` = 'Insufficient
balance.'; `marketNotFound` = 'Market not found.' (part_000 revisions);
`alreadyResolved` = 'Already resolved.'; `invalidOutcome` = 'Winning
option matched neither A nor B.' (part_000 revisions); `undefinedAccess`
= the TypeError raised by `market.is_resolved` in src/index.js when the
market row is absent (`marketRes.rows[0]` is undefined). -/
inductive RErr where
  | userNotFound
  | insufficientFunds
  | marketNotFound
  | alreadyResolved
  | invalidOutcome
  | undefinedAccess
deriving DecidableEq

/-- `SELECT ... FROM users WHERE email = $1` (first matching row). -/
def DB.findUser (db : DB) (email : String) : Option User :=
  db.users.find? (fun u => u.email == email)

/-- `SELECT * FROM markets WHERE id = $1` (first matching row). -/
def DB.findMarket (db : DB) (mid : Nat) : Option Market :=
  db.markets.find? (fun m => m.id == mid)

/-- `UPDATE users SET balance_kes = balance_kes + $1 WHERE id = $2`. -/
def DB.creditUser (db : DB) (uid : Nat) (amt : ℚ) : DB :=
  { db with users :=
      db.users.map (fun u => if u.id == uid then { u with balance := u.balance + amt } else u) }

/-- `UPDATE users SET balance_kes = balance_kes - $1 WHERE id = $2`. -/
def DB.debitUser (db : DB) (uid : Nat) (amt : ℚ) : DB :=
  { db with users :=
      db.users.map (fun u => if u.id == uid then { u with balance := u.balance - amt } else u) }

/-- `UPDATE users SET balance_kes = balance_kes + $1 WHERE email = $2`. -/
def DB.creditEmail (db : DB) (email : String) (amt : ℚ) : DB :=
  { db with users :=
      db.users.map (fun u => if u.email == email then { u with balance := u.balance + amt } else u) }

/-- `UPDATE markets SET <pool column> = <pool column> + $1 WHERE id = $2`,
where the column is `option_a_pool` when `chosen_option === 'A'` and
`option_b_pool` otherwise (src/index.js line 238). -/
def DB.addToPool (db : DB) (mid : Nat) (chosen : String) (amt : ℚ) : DB :=
  { db with markets :=
      db.markets.map (fun m =>
        if m.id == mid then
          if chosen == "A" then { m with poolA := m.poolA + amt }
          else { m with poolB := m.poolB + amt }
        else m) }

/-- `UPDATE markets SET is_resolved = TRUE, winning_option = $1 WHERE id = $2`. -/
def DB.setResolved (db : DB) (mid : Nat) (winOpt : String) : DB :=
  { db with markets :=
      db.markets.map (fun m =>
        if m.id == mid then { m with isResolved := true, winningOption := winOpt } else m) }

/-- `UPDATE markets SET is_resolved = TRUE, winning_option = 'Refunded',
category = 'Cancelled (Refund)' WHERE id = $1` (part_000 refund branch). -/
def DB.setRefundedV0 (db : DB) (mid : Nat) : DB :=
  { db with markets :=
      db.markets.map (fun m =>
        if m.id == mid then
          { m with isResolved := true, winningOption := "Refunded",
                   category := "Cancelled (Refund)" }
        else m) }

/-- JS `String.prototype.toLowerCase()`, modelled structurally
character-by-character (ASCII-faithful). -/
def jsToLower (s : String) : String := String.mk (s.data.map Char.toLower)

/-- JS `String.prototype.trim()`: strip leading and trailing whitespace,
modelled structurally. -/
def jsTrim (s : String) : String :=
  String.mk (((s.data.dropWhile Char.isWhitespace).reverse.dropWhile
      Char.isWhitespace).reverse)

/-- The JS truthiness test `market.creator_id` on a nullable integer
column: null/undefined and 0 are falsy, any other integer is truthy. -/
def jsIdTruthy : Option Nat → Bool
  | some n => n != 0
  | none => false

/-- The thesis guard of POST /api/bet (src/index.js line 246):
`thesis && thesis.trim() !== '' && amount_kes >= 50`.  An absent or empty
string is falsy. -/
def thesisEligible (thesis : Option String) (amount : ℚ) : Bool :=
  match thesis with
  | none => false
  | some t => !(t == "") && !(jsTrim t == "") && decide (50 ≤ amount)

/-- POST /api/bet (src/index.js lines 227-257).  `newBetId`/`newThesisId`
stand for the SERIAL keys the store would assign.  On success returns the
new state together with the inserted bet row; on failure the transaction
rolls back, so only the error escapes. -/
def placeBet (db : DB) (email : String) (mid : Nat) (chosen : String) (amount : ℚ)
    (thesis : Option String) (newBetId newThesisId : Nat) : Except RErr (DB × Bet) :=
  match db.findUser email with
  | none => .error .userNotFound
  | some user =>
    if user.balance < amount then .error .insufficientFunds
    else
      let db1 := db.debitUser user.id amount
      let db2 := db1.addToPool mid chosen amount
      let bet : Bet :=
        { id := newBetId, userId := user.id, marketId := mid,
          chosenOption := chosen, amount := amount }
      let db3 := { db2 with bets := db2.bets ++ [bet] }
      let db4 :=
        match thesis with
        | some t =>
          if !(t == "") && !(jsTrim t == "") && decide (50 ≤ amount) then
            { db3 with theses :=
                db3.theses ++ [{ id := newThesisId, betId := bet.id, userId := user.id,
                                 marketId := mid, content := t }] }
          else db3
        | none => db3
      .ok (db4, bet)

/-- The admin wallet of src/index.js (line 23). -/
def ADMIN_EMAIL : String := "nguitui.kamau@gmail.com"

/-- Outcome normalization of src/index.js line 317:
`winning_option.toLowerCase().trim() === 'a' || winning_option.trim() === market.option_a ? 'A' : 'B'`.
Note: the label comparison is case-sensitive and only against option A;
every non-matching input falls through to 'B'. -/
def winLetterOf (winningOption : String) (m : Market) : String :=
  if jsTrim (jsToLower winningOption) = "a" ∨ jsTrim winningOption = m.optionA then "A" else "B"

/-- Outcome normalization of src/unnamed/part_000 lines 269-277 (identical
in the second revision, lines 609-617): case-insensitive, trimmed match
against the literal letters and both option labels, with an explicit
failure when neither matches. -/
def winLetterV0 (winningOption : String) (m : Market) : Except RErr String :=
  let inputOpt := jsTrim (jsToLower winningOption)
  if inputOpt = "a" ∨ inputOpt = jsTrim (jsToLower m.optionA) then .ok "A"
  else if inputOpt = "b" ∨ inputOpt = jsTrim (jsToLower m.optionB) then .ok "B"
  else .error .invalidOutcome

/-- The settlement fee of src/index.js line 333:
`totalPool < 1000 ? 0 : losingPool * 0.05`. -/
def totalFeeOf (totalPool losingPool : ℚ) : ℚ :=
  if totalPool < 1000 then 0 else losingPool * (5 / 100)

/-- The creator royalty of src/index.js line 334:
`totalPool < 1000 ? 0 : losingPool * 0.005`. -/
def creatorRoyaltyOf (totalPool losingPool : ℚ) : ℚ :=
  if totalPool < 1000 then 0 else losingPool * (5 / 1000)

/-- A winner's credit, src/index.js line 346:
`parseFloat(bet.amount_kes) + (parseFloat(bet.amount_kes) / winningPool * (losingPool - totalFee))`.
The same expression appears in part_000 lines 320-323 as
`userStake + (userSharePercentage * distributableProfit)` with
`distributableProfit = losingPool - houseCut`. -/
def winnerPayout (stake winningPool losingPool totalFee : ℚ) : ℚ :=
  stake + stake / winningPool * (losingPool - totalFee)

/-- POST /api/resolve of src/index.js (lines 308-358), the newest
revision: no market-not-found guard (the undefined row access throws a
TypeError), the one-line `winLetter`, and the house fee split into an
admin cut and a creator royalty. -/
def resolveMarket (db : DB) (mid : Nat) (winningOption : String) : Except RErr DB :=
  match db.findMarket mid with
  | none => .error .undefinedAccess
  | some market =>
    if market.isResolved then .error .alreadyResolved
    else
      let winLetter := winLetterOf winningOption market
      let poolA := market.poolA
      let poolB := market.poolB
      let totalPool := poolA + poolB
      if poolA = 0 ∨ poolB = 0 then
        let allBets := db.bets.filter (fun b => b.marketId == mid)
        let db1 := allBets.foldl (fun d b => d.creditUser b.userId b.amount) db
        .ok (db1.setResolved mid "Refunded")
      else
        let db1 := db.setResolved mid winLetter
        let losingPool := if winLetter = "A" then poolB else poolA
        let winningPool := if winLetter = "A" then poolA else poolB
        let totalFee := totalFeeOf totalPool losingPool
        let creatorRoyalty := creatorRoyaltyOf totalPool losingPool
        let adminCut := totalFee - creatorRoyalty
        let db2 :=
          if 0 < creatorRoyalty ∧ jsIdTruthy market.creatorId then
            db1.creditUser (market.creatorId.getD 0) creatorRoyalty
          else db1
        let db3 := if 0 < adminCut then db2.creditEmail ADMIN_EMAIL adminCut else db2
        let winBets := db1.bets.filter (fun b => b.marketId == mid && b.chosenOption == winLetter)
        let db4 := winBets.foldl
          (fun d b => d.creditUser b.userId (winnerPayout b.amount winningPool losingPool totalFee)) db3
        .ok db4

/-- POST /api/resolve of src/unnamed/part_000 (lines 255-340; the second
revision, lines 591-708, is identical except for the admin email): the
explicit market-not-found guard, the full outcome normalization with
`invalidOutcome`, and a single undivided house cut. -/
def resolveMarketV0 (db : DB) (mid : Nat) (winningOption : String) : Except RErr DB :=
  match db.findMarket mid with
  | none => .error .marketNotFound
  | some market =>
    if market.isResolved then .error .alreadyResolved
    else
      match winLetterV0 winningOption market with
      | .error e => .error e
      | .ok winLetter =>
        let poolA := market.poolA
        let poolB := market.poolB
        let totalPool := poolA + poolB
        if poolA = 0 ∨ poolB = 0 then
          let allBets := db.bets.filter (fun b => b.marketId == mid)
          let db1 := allBets.foldl (fun d b => d.creditUser b.userId b.amount) db
          .ok (db1.setRefundedV0 mid)
        else
          let db1 := db.setResolved mid winLetter
          let winningPool := if winLetter = "A" then poolA else poolB
          let losingPool := if winLetter = "A" then poolB else poolA
          let houseCut := totalFeeOf totalPool losingPool
          let db2 := if 0 < houseCut then db1.creditEmail ADMIN_EMAIL houseCut else db1
          let winBets := db1.bets.filter (fun b => b.marketId == mid && b.chosenOption == winLetter)
          let db3 := winBets.foldl
            (fun d b => d.creditUser b.userId (winnerPayout b.amount winningPool losingPool houseCut)) db2
          .ok db3

/-- The bet-history payout projection of GET /api/bets
(src/index.js lines 274-301): status and projected payout for one joined
(bet, market) row.  Pure and read-only. -/
def projectPayout (bet : Bet) (m : Market) : String × ℚ :=
  let stake := bet.amount
  if m.isResolved then
    if m.winningOption = "Refunded" then ("Refunded", stake)
    else if bet.chosenOption = m.winningOption then
      let poolA := m.poolA
      let poolB := m.poolB
      let totalPool := poolA + poolB
      let winningPool := if m.winningOption = "A" then poolA else poolB
      let losingPool := if m.winningOption = "A" then poolB else poolA
      let fee : ℚ := if totalPool < 1000 then 0 else 5 / 100
      let distributableProfit := losingPool - losingPool * fee
      let share := stake / winningPool
      ("Won", stake + share * distributableProfit)
    else ("Lost", 0)
  else ("Pending", 0)

/-- Observer: the balance of the (first) user row with the given id. -/
def DB.balanceOf (db : DB) (uid : Nat) : ℚ :=
  ((db.users.find? (fun u => u.id == uid)).map User.balance).getD 0

/-- Observer: the balance of the (first) user row with the given email. -/
def DB.balanceOfEmail (db : DB) (email : String) : ℚ :=
  ((db.users.find? (fun u => u.email == email)).map User.balance).getD 0

/-- Observer: the sum of all user balances (total money held in accounts). -/
def DB.totalBalance (db : DB) : ℚ :=
  (db.users.map User.balance).sum

/-- Observer: the pool column of the given market for the given option
(A-pool when the option is "A", B-pool otherwise; 0 when no market). -/
def DB.poolOf (db : DB) (mid : Nat) (opt : String) : ℚ :=
  match db.findMarket mid with
  | some m => if opt == "A" then m.poolA else m.poolB
  | none => 0

/-- The sum of the stakes of all bets on a market whose chosen option is
`opt` — what the pool column equals when every stake arrived via
`placeBet` on a fresh market. -/
def sumStakesOn (bets : List Bet) (mid : Nat) (opt : String) : ℚ :=
  ((bets.filter (fun b => b.marketId == mid && b.chosenOption == opt)).map Bet.amount).sum

/-- The sum of the stakes of all bets on market `mid` owned by `uid`. -/
def sumStakesOfUser (bets : List Bet) (mid : Nat) (uid : Nat) : ℚ :=
  ((bets.filter (fun b => b.marketId == mid && b.userId == uid)).map Bet.amount).sum

/-- The sum of the stakes of all bets on market `mid`. -/
def sumStakesAll (bets : List Bet) (mid : Nat) : ℚ :=
  ((bets.filter (fun b => b.marketId == mid)).map Bet.amount).sum

/-- The normal-settlement branch of src/index.js /api/resolve
(lines 329-348), as a function of the pre-state, the locked market row
and the already-computed winning letter. -/
def normalSettle (db : DB) (mid : Nat) (market : Market) (winLetter : String) : DB :=
  let poolA := market.poolA
  let poolB := market.poolB
  let totalPool := poolA + poolB
  let db1 := db.setResolved mid winLetter
  let losingPool := if winLetter = "A" then poolB else poolA
  let winningPool := if winLetter = "A" then poolA else poolB
  let totalFee := totalFeeOf totalPool losingPool
  let creatorRoyalty := creatorRoyaltyOf totalPool losingPool
  let adminCut := totalFee - creatorRoyalty
  let db2 :=
    if 0 < creatorRoyalty ∧ jsIdTruthy market.creatorId then
      db1.creditUser (market.creatorId.getD 0) creatorRoyalty
    else db1
  let db3 := if 0 < adminCut then db2.creditEmail ADMIN_EMAIL adminCut else db2
  let winBets := db1.bets.filter (fun b => b.marketId == mid && b.chosenOption == winLetter)
  winBets.foldl
    (fun d b => d.creditUser b.userId (winnerPayout b.amount winningPool losingPool totalFee)) db3

/-- The refund branch of src/index.js /api/resolve (lines 322-327). -/
def refundSettle (db : DB) (mid : Nat) : DB :=
  let allBets := db.bets.filter (fun b => b.marketId == mid)
  let db1 := allBets.foldl (fun d b => d.creditUser b.userId b.amount) db
  db1.setResolved mid "Refunded"

/-! ### Concrete states used to settle the claims on explicit inputs -/

/-- A market on "Yes" vs "No" with both pools funded (600 vs 400). -/
def mkYesNo : Market :=
  { id := 1, optionA := "Yes", optionB := "No", poolA := 600, poolB := 400,
    isResolved := false, winningOption := "", category := "General", creatorId := none }

def exC2db : DB :=
  { users := [{ id := 1, email := "alice@x", balance := 0 },
              { id := 2, email := "bob@x", balance := 0 },
              { id := 9, email := ADMIN_EMAIL, balance := 0 }],
    markets := [mkYesNo],
    bets := [{ id := 1, userId := 1, marketId := 1, chosenOption := "A", amount := 600 },
             { id := 2, userId := 2, marketId := 1, chosenOption := "B", amount := 400 }],
    theses := [] }

def exC1db : DB :=
  { users := [{ id := 1, email := "alice@x", balance := 0 },
              { id := 2, email := "bob@x", balance := 0 },
              { id := 9, email := ADMIN_EMAIL, balance := 0 }],
    markets := [mkYesNo],
    bets := [{ id := 1, userId := 1, marketId := 1, chosenOption := "A", amount := 600 },
             { id := 2, userId := 2, marketId := 1, chosenOption := "B", amount := 400 }],
    theses := [] }

def exC5mkt : Market :=
  { id := 1, optionA := "Yes", optionB := "No", poolA := 600, poolB := 400,
    isResolved := true, winningOption := "A", category := "General", creatorId := none }

def exC5db : DB :=
  { users := [{ id := 1, email := "alice@x", balance := 7 }],
    markets := [exC5mkt],
    bets := [{ id := 1, userId := 1, marketId := 1, chosenOption := "A", amount := 600 }],
    theses := [] }

def exC9db : DB :=
  { users := [{ id := 1, email := "alice@x", balance := 7 }],
    markets := [mkYesNo],
    bets := [],
    theses := [] }

/-- The 600/400 market with user 3 recorded as creator. -/
def exC1wmkt : Market :=
  { id := 1, optionA := "Yes", optionB := "No", poolA := 600, poolB := 400,
    isResolved := false, winningOption := "", category := "General", creatorId := some 3 }

def exC1wdb : DB :=
  { users := [{ id := 1, email := "alice@x", balance := 0 },
              { id := 2, email := "bob@x", balance := 0 },
              { id := 3, email := "carol@x", balance := 0 },
              { id := 9, email := ADMIN_EMAIL, balance := 0 }],
    markets := [exC1wmkt],
    bets := [{ id := 1, userId := 1, marketId := 1, chosenOption := "A", amount := 600 },
             { id := 2, userId := 2, marketId := 1, chosenOption := "B", amount := 400 }],
    theses := [] }

/-- The spec's unanimous-market example: pool A = 0, pool B = 500. -/
def exC4mkt : Market :=
  { id := 1, optionA := "Yes", optionB := "No", poolA := 0, poolB := 500,
    isResolved := false, winningOption := "", category := "General", creatorId := none }

def exC4db : DB :=
  { users := [{ id := 1, email := "alice@x", balance := 0 },
              { id := 2, email := "bob@x", balance := 0 },
              { id := 9, email := ADMIN_EMAIL, balance := 0 }],
    markets := [exC4mkt],
    bets := [{ id := 1, userId := 1, marketId := 1, chosenOption := "B", amount := 300 },
             { id := 2, userId := 2, marketId := 1, chosenOption := "B", amount := 200 }],
    theses := [] }

/-- The spec's worked example: 600 vs 400 with a 300-stake winner. -/
def exC3db : DB :=
  { users := [{ id := 1, email := "alice@x", balance := 0 },
              { id := 2, email := "bob@x", balance := 0 },
              { id := 3, email := "carol@x", balance := 0 },
              { id := 9, email := ADMIN_EMAIL, balance := 0 }],
    markets := [mkYesNo],
    bets := [{ id := 1, userId := 1, marketId := 1, chosenOption := "A", amount := 300 },
             { id := 2, userId := 2, marketId := 1, chosenOption := "A", amount := 300 },
             { id := 3, userId := 3, marketId := 1, chosenOption := "B", amount := 400 }],
    theses := [] }

def exC8db : DB :=
  { users := [{ id := 1, email := "alice@x", balance := 100 }],
    markets := [mkYesNo],
    bets := [],
    theses := [] }

def exC10db : DB :=
  { users := [{ id := 1, email := "alice@x", balance := 100 }],
    markets := [exC5mkt],
    bets := [],
    theses := [] }

/-! ### Transport lemmas: how each store operation moves the observers -/

theorem find?_map_pred {α : Type} (l : List α) (f : α → α) (p : α → Bool)
    (hp : ∀ a, p (f a) = p a) : (l.map f).find? p = (l.find? p).map f := by
  induction l with
  | nil => rfl
  | cons a t ih =>
    by_cases h : p a
    · rw [List.map_cons, List.find?_cons_of_pos _ (by rw [hp]; exact h),
        List.find?_cons_of_pos _ h, Option.map_some']
    · rw [List.map_cons, List.find?_cons_of_neg _ (by rw [hp]; exact h),
        List.find?_cons_of_neg _ h, ih]

theorem countP_map_pred {α : Type} (l : List α) (f : α → α) (p : α → Bool)
    (hp : ∀ a, p (f a) = p a) : (l.map f).countP p = l.countP p := by
  induction l with
  | nil => rfl
  | cons a t ih => rw [List.map_cons, List.countP_cons, List.countP_cons, ih, hp]

theorem sum_balances_map_cond (l : List User) (p : User → Bool) (amt : ℚ) :
    ((l.map (fun u => if p u then { u with balance := u.balance + amt } else u)).map
        User.balance).sum
      = (l.map User.balance).sum + (l.countP p : ℚ) * amt := by
  induction l with
  | nil => simp
  | cons u t ih =>
    by_cases h : p u <;>
      simp only [List.map_cons, List.sum_cons, List.countP_cons, h, if_true, if_false, ih] <;>
      push_cast <;> ring

theorem creditUser_pred_id (uid : Nat) (amt : ℚ) (v : Nat) :
    ∀ u : User,
      ((if u.id == uid then { u with balance := u.balance + amt } else u).id == v)
        = (u.id == v) := by
  intro u; by_cases h : u.id == uid <;> simp [h]

theorem creditUser_pred_email (uid : Nat) (amt : ℚ) (e : String) :
    ∀ u : User,
      ((if u.id == uid then { u with balance := u.balance + amt } else u).email == e)
        = (u.email == e) := by
  intro u; by_cases h : u.id == uid <;> simp [h]

theorem debitUser_pred_id (uid : Nat) (amt : ℚ) (v : Nat) :
    ∀ u : User,
      ((if u.id == uid then { u with balance := u.balance - amt } else u).id == v)
        = (u.id == v) := by
  intro u; by_cases h : u.id == uid <;> simp [h]

theorem debitUser_pred_email (uid : Nat) (amt : ℚ) (e : String) :
    ∀ u : User,
      ((if u.id == uid then { u with balance := u.balance - amt } else u).email == e)
        = (u.email == e) := by
  intro u; by_cases h : u.id == uid <;> simp [h]

theorem creditEmail_pred_id (e : String) (amt : ℚ) (v : Nat) :
    ∀ u : User,
      ((if u.email == e then { u with balance := u.balance + amt } else u).id == v)
        = (u.id == v) := by
  intro u; by_cases h : u.email == e <;> simp [h]

theorem creditEmail_pred_email (e : String) (amt : ℚ) (e2 : String) :
    ∀ u : User,
      ((if u.email == e then { u with balance := u.balance + amt } else u).email == e2)
        = (u.email == e2) := by
  intro u; by_cases h : u.email == e <;> simp [h]

theorem findId_creditUser (db : DB) (uid : Nat) (amt : ℚ) (v : Nat) :
    (db.creditUser uid amt).users.find? (fun u => u.id == v)
      = (db.users.find? (fun u => u.id == v)).map
          (fun u => if u.id == uid then { u with balance := u.balance + amt } else u) :=
  find?_map_pred _ _ _ (creditUser_pred_id uid amt v)

theorem findEmail_creditUser (db : DB) (uid : Nat) (amt : ℚ) (e : String) :
    (db.creditUser uid amt).users.find? (fun u => u.email == e)
      = (db.users.find? (fun u => u.email == e)).map
          (fun u => if u.id == uid then { u with balance := u.balance + amt } else u) :=
  find?_map_pred _ _ _ (creditUser_pred_email uid amt e)

theorem findId_debitUser (db : DB) (uid : Nat) (amt : ℚ) (v : Nat) :
    (db.debitUser uid amt).users.find? (fun u => u.id == v)
      = (db.users.find? (fun u => u.id == v)).map
          (fun u => if u.id == uid then { u with balance := u.balance - amt } else u) :=
  find?_map_pred _ _ _ (debitUser_pred_id uid amt v)

theorem findEmail_debitUser (db : DB) (uid : Nat) (amt : ℚ) (e : String) :
    (db.debitUser uid amt).users.find? (fun u => u.email == e)
      = (db.users.find? (fun u => u.email == e)).map
          (fun u => if u.id == uid then { u with balance := u.balance - amt } else u) :=
  find?_map_pred _ _ _ (debitUser_pred_email uid amt e)

theorem findId_creditEmail (db : DB) (e : String) (amt : ℚ) (v : Nat) :
    (db.creditEmail e amt).users.find? (fun u => u.id == v)
      = (db.users.find? (fun u => u.id == v)).map
          (fun u => if u.email == e then { u with balance := u.balance + amt } else u) :=
  find?_map_pred _ _ _ (creditEmail_pred_id e amt v)

theorem findEmail_creditEmail (db : DB) (e : String) (amt : ℚ) (e2 : String) :
    (db.creditEmail e amt).users.find? (fun u => u.email == e2)
      = (db.users.find? (fun u => u.email == e2)).map
          (fun u => if u.email == e then { u with balance := u.balance + amt } else u) :=
  find?_map_pred _ _ _ (creditEmail_pred_email e amt e2)

theorem balanceOf_creditUser (db : DB) (uid : Nat) (amt : ℚ) (v : Nat) :
    (db.creditUser uid amt).balanceOf v
      = if (db.users.find? (fun u => u.id == v)).isSome ∧ v = uid
        then db.balanceOf v + amt else db.balanceOf v := by
  unfold DB.balanceOf
  rw [show (db.creditUser uid amt).users.find? (fun u => u.id == v)
        = (db.users.find? (fun u => u.id == v)).map
            (fun u => if u.id == uid then { u with balance := u.balance + amt } else u)
      from findId_creditUser db uid amt v]
  cases hf : db.users.find? (fun u => u.id == v) with
  | none => simp
  | some u =>
    have hu := List.find?_some hf
    have huv : u.id = v := by simpa using hu
    by_cases hv : v = uid
    · subst hv
      simp [huv]
    · have h2 : ¬ u.id = uid := by rw [huv]; exact hv
      simp [h2, hv]

theorem balanceOf_debitUser (db : DB) (uid : Nat) (amt : ℚ) (v : Nat) :
    (db.debitUser uid amt).balanceOf v
      = if (db.users.find? (fun u => u.id == v)).isSome ∧ v = uid
        then db.balanceOf v - amt else db.balanceOf v := by
  unfold DB.balanceOf
  rw [show (db.debitUser uid amt).users.find? (fun u => u.id == v)
        = (db.users.find? (fun u => u.id == v)).map
            (fun u => if u.id == uid then { u with balance := u.balance - amt } else u)
      from findId_debitUser db uid amt v]
  cases hf : db.users.find? (fun u => u.id == v) with
  | none => simp
  | some u =>
    have hu := List.find?_some hf
    have huv : u.id = v := by simpa using hu
    by_cases hv : v = uid
    · subst hv
      simp [huv]
    · have h2 : ¬ u.id = uid := by rw [huv]; exact hv
      simp [h2, hv]

theorem balanceOf_creditEmail (db : DB) (e : String) (amt : ℚ) (v : Nat) :
    (db.creditEmail e amt).balanceOf v
      = match db.users.find? (fun u => u.id == v) with
        | some u => if u.email = e then db.balanceOf v + amt else db.balanceOf v
        | none => db.balanceOf v := by
  unfold DB.balanceOf
  rw [show (db.creditEmail e amt).users.find? (fun u => u.id == v)
        = (db.users.find? (fun u => u.id == v)).map
            (fun u => if u.email == e then { u with balance := u.balance + amt } else u)
      from findId_creditEmail db e amt v]
  cases hf : db.users.find? (fun u => u.id == v) with
  | none => simp
  | some u =>
    by_cases he : u.email = e
    · simp [he]
    · simp [he]

theorem balanceOfEmail_creditEmail (db : DB) (e : String) (amt : ℚ) (e2 : String) :
    (db.creditEmail e amt).balanceOfEmail e2
      = if (db.users.find? (fun u => u.email == e2)).isSome ∧ e2 = e
        then db.balanceOfEmail e2 + amt else db.balanceOfEmail e2 := by
  unfold DB.balanceOfEmail
  rw [show (db.creditEmail e amt).users.find? (fun u => u.email == e2)
        = (db.users.find? (fun u => u.email == e2)).map
            (fun u => if u.email == e then { u with balance := u.balance + amt } else u)
      from findEmail_creditEmail db e amt e2]
  cases hf : db.users.find? (fun u => u.email == e2) with
  | none => simp
  | some u =>
    have hu := List.find?_some hf
    have huv : u.email = e2 := by simpa using hu
    by_cases hv : e2 = e
    · subst hv
      simp [huv]
    · have h2 : ¬ u.email = e := by rw [huv]; exact hv
      simp [h2, hv]

theorem balanceOfEmail_creditUser (db : DB) (uid : Nat) (amt : ℚ) (e : String) :
    (db.creditUser uid amt).balanceOfEmail e
      = match db.users.find? (fun u => u.email == e) with
        | some u => if u.id = uid then db.balanceOfEmail e + amt else db.balanceOfEmail e
        | none => db.balanceOfEmail e := by
  unfold DB.balanceOfEmail
  rw [show (db.creditUser uid amt).users.find? (fun u => u.email == e)
        = (db.users.find? (fun u => u.email == e)).map
            (fun u => if u.id == uid then { u with balance := u.balance + amt } else u)
      from findEmail_creditUser db uid amt e]
  cases hf : db.users.find? (fun u => u.email == e) with
  | none => simp
  | some u =>
    by_cases he : u.id = uid
    · simp [he]
    · simp [he]

theorem balanceOfEmail_debitUser (db : DB) (uid : Nat) (amt : ℚ) (e : String) :
    (db.debitUser uid amt).balanceOfEmail e
      = match db.users.find? (fun u => u.email == e) with
        | some u => if u.id = uid then db.balanceOfEmail e - amt else db.balanceOfEmail e
        | none => db.balanceOfEmail e := by
  unfold DB.balanceOfEmail
  rw [show (db.debitUser uid amt).users.find? (fun u => u.email == e)
        = (db.users.find? (fun u => u.email == e)).map
            (fun u => if u.id == uid then { u with balance := u.balance - amt } else u)
      from findEmail_debitUser db uid amt e]
  cases hf : db.users.find? (fun u => u.email == e) with
  | none => simp
  | some u =>
    by_cases he : u.id = uid
    · simp [he]
    · simp [he]

theorem totalBalance_creditUser (db : DB) (uid : Nat) (amt : ℚ) :
    (db.creditUser uid amt).totalBalance
      = db.totalBalance + (db.users.countP (fun u => u.id == uid) : ℚ) * amt :=
  sum_balances_map_cond db.users (fun u => u.id == uid) amt

theorem totalBalance_creditEmail (db : DB) (e : String) (amt : ℚ) :
    (db.creditEmail e amt).totalBalance
      = db.totalBalance + (db.users.countP (fun u => u.email == e) : ℚ) * amt :=
  sum_balances_map_cond db.users (fun u => u.email == e) amt

theorem countPid_creditUser (db : DB) (uid : Nat) (amt : ℚ) (v : Nat) :
    (db.creditUser uid amt).users.countP (fun u => u.id == v)
      = db.users.countP (fun u => u.id == v) :=
  countP_map_pred _ _ _ (creditUser_pred_id uid amt v)

theorem countPid_creditEmail (db : DB) (e : String) (amt : ℚ) (v : Nat) :
    (db.creditEmail e amt).users.countP (fun u => u.id == v)
      = db.users.countP (fun u => u.id == v) :=
  countP_map_pred _ _ _ (creditEmail_pred_id e amt v)

theorem countPemail_creditUser (db : DB) (uid : Nat) (amt : ℚ) (e : String) :
    (db.creditUser uid amt).users.countP (fun u => u.email == e)
      = db.users.countP (fun u => u.email == e) :=
  countP_map_pred _ _ _ (creditUser_pred_email uid amt e)

/-! The store operations leave the other tables unchanged. -/

theorem creditUser_markets (db : DB) (uid : Nat) (amt : ℚ) :
    (db.creditUser uid amt).markets = db.markets := rfl

theorem creditUser_bets (db : DB) (uid : Nat) (amt : ℚ) :
    (db.creditUser uid amt).bets = db.bets := rfl

theorem creditEmail_markets (db : DB) (e : String) (amt : ℚ) :
    (db.creditEmail e amt).markets = db.markets := rfl

theorem creditEmail_bets (db : DB) (e : String) (amt : ℚ) :
    (db.creditEmail e amt).bets = db.bets := rfl

theorem setResolved_users (db : DB) (mid : Nat) (s : String) :
    (db.setResolved mid s).users = db.users := rfl

theorem setResolved_bets (db : DB) (mid : Nat) (s : String) :
    (db.setResolved mid s).bets = db.bets := rfl

theorem setRefundedV0_users (db : DB) (mid : Nat) :
    (db.setRefundedV0 mid).users = db.users := rfl

theorem balanceOf_setResolved (db : DB) (mid : Nat) (s : String) (v : Nat) :
    (db.setResolved mid s).balanceOf v = db.balanceOf v := rfl

theorem balanceOfEmail_setResolved (db : DB) (mid : Nat) (s : String) (e : String) :
    (db.setResolved mid s).balanceOfEmail e = db.balanceOfEmail e := rfl

theorem totalBalance_setResolved (db : DB) (mid : Nat) (s : String) :
    (db.setResolved mid s).totalBalance = db.totalBalance := rfl

theorem findMarket_setResolved (db : DB) (mid : Nat) (s : String) (v : Nat) :
    (db.setResolved mid s).findMarket v
      = (db.findMarket v).map
          (fun m => if m.id == mid then { m with isResolved := true, winningOption := s } else m) :=
  find?_map_pred _ _ _
    (by intro m; by_cases h : m.id == mid <;> simp [h])

theorem findMarket_setRefundedV0 (db : DB) (mid : Nat) (v : Nat) :
    (db.setRefundedV0 mid).findMarket v
      = (db.findMarket v).map
          (fun m => if m.id == mid then
              { m with isResolved := true, winningOption := "Refunded",
                       category := "Cancelled (Refund)" }
            else m) :=
  find?_map_pred _ _ _
    (by intro m; by_cases h : m.id == mid <;> simp [h])

theorem findMarket_addToPool (db : DB) (mid : Nat) (chosen : String) (amt : ℚ) (v : Nat) :
    (db.addToPool mid chosen amt).findMarket v
      = (db.findMarket v).map
          (fun m => if m.id == mid then
              (if chosen == "A" then { m with poolA := m.poolA + amt }
               else { m with poolB := m.poolB + amt })
            else m) :=
  find?_map_pred _ _ _
    (by intro m; by_cases h : m.id == mid <;> by_cases hc : chosen == "A" <;> simp [h, hc])

theorem addToPool_users (db : DB) (mid : Nat) (chosen : String) (amt : ℚ) :
    (db.addToPool mid chosen amt).users = db.users := rfl

theorem debitUser_markets (db : DB) (uid : Nat) (amt : ℚ) :
    (db.debitUser uid amt).markets = db.markets := rfl

theorem findIdIsSome_creditUser (db : DB) (uid : Nat) (amt : ℚ) (v : Nat) :
    ((db.creditUser uid amt).users.find? (fun u => u.id == v)).isSome
      = (db.users.find? (fun u => u.id == v)).isSome := by
  rw [findId_creditUser]
  cases db.users.find? (fun u => u.id == v) <;> rfl

theorem findIdIsSome_creditEmail (db : DB) (e : String) (amt : ℚ) (v : Nat) :
    ((db.creditEmail e amt).users.find? (fun u => u.id == v)).isSome
      = (db.users.find? (fun u => u.id == v)).isSome := by
  rw [findId_creditEmail]
  cases db.users.find? (fun u => u.id == v) <;> rfl

/-! ### Folded credit loops (the per-bet UPDATE loops of /api/resolve) -/

theorem creditFold_markets (l : List Bet) (pay : Bet → ℚ) :
    ∀ db : DB,
      (l.foldl (fun d b => d.creditUser b.userId (pay b)) db).markets = db.markets := by
  induction l with
  | nil => intro db; rfl
  | cons b t ih => intro db; rw [List.foldl_cons, ih]; rfl

theorem creditFold_bets (l : List Bet) (pay : Bet → ℚ) :
    ∀ db : DB,
      (l.foldl (fun d b => d.creditUser b.userId (pay b)) db).bets = db.bets := by
  induction l with
  | nil => intro db; rfl
  | cons b t ih => intro db; rw [List.foldl_cons, ih]; rfl

theorem totalBalance_creditFold (l : List Bet) (pay : Bet → ℚ) :
    ∀ db : DB, (∀ b ∈ l, db.users.countP (fun u => u.id == b.userId) = 1) →
      (l.foldl (fun d b => d.creditUser b.userId (pay b)) db).totalBalance
        = db.totalBalance + (l.map pay).sum := by
  induction l with
  | nil => intro db _; simp
  | cons b t ih =>
    intro db h
    have ht : ∀ x ∈ t,
        (db.creditUser b.userId (pay b)).users.countP (fun u => u.id == x.userId) = 1 := by
      intro x hx
      rw [countPid_creditUser]
      exact h x (List.mem_cons_of_mem _ hx)
    rw [List.foldl_cons, ih _ ht, totalBalance_creditUser, h b (List.mem_cons_self _ _),
      List.map_cons, List.sum_cons]
    push_cast
    ring

theorem balanceOf_creditFold (l : List Bet) (pay : Bet → ℚ) (v : Nat) :
    ∀ db : DB, (db.users.find? (fun u => u.id == v)).isSome = true →
      (l.foldl (fun d b => d.creditUser b.userId (pay b)) db).balanceOf v
        = db.balanceOf v + ((l.filter (fun b => b.userId == v)).map pay).sum := by
  induction l with
  | nil => intro db _; simp
  | cons b t ih =>
    intro db h
    have h1 : ((db.creditUser b.userId (pay b)).users.find? (fun u => u.id == v)).isSome = true := by
      rw [findIdIsSome_creditUser]; exact h
    rw [List.foldl_cons, ih _ h1, balanceOf_creditUser]
    by_cases hv : v = b.userId
    · have hb : (b.userId == v) = true := by simp [hv]
      rw [if_pos ⟨h, hv⟩, List.filter_cons, if_pos hb, List.map_cons, List.sum_cons]
      ring
    · have hb : (b.userId == v) = false := by
        simp only [beq_eq_false_iff_ne, ne_eq]
        intro hc; exact hv hc.symm
      rw [if_neg (by intro hc; exact hv hc.2), List.filter_cons, if_neg (by simp [hb])]

theorem balanceOfEmail_creditFold_ne (l : List Bet) (pay : Bet → ℚ) (e : String) :
    ∀ db : DB, ∀ w : User, db.users.find? (fun u => u.email == e) = some w →
      (∀ b ∈ l, b.userId ≠ w.id) →
      (l.foldl (fun d b => d.creditUser b.userId (pay b)) db).balanceOfEmail e
        = db.balanceOfEmail e := by
  induction l with
  | nil => intro db w _ _; rfl
  | cons b t ih =>
    intro db w hw hne
    have hid : ¬ w.id = b.userId := fun hc => hne b (List.mem_cons_self _ _) hc.symm
    have hw1 : (db.creditUser b.userId (pay b)).users.find? (fun u => u.email == e) = some w := by
      rw [findEmail_creditUser, hw, Option.map_some']
      have : (w.id == b.userId) = false := by
        simp only [beq_eq_false_iff_ne, ne_eq]; exact hid
      simp [this]
    rw [List.foldl_cons, ih _ w hw1 (fun x hx => hne x (List.mem_cons_of_mem _ hx))]
    rw [balanceOfEmail_creditUser, hw]
    simp [hid]

/-! ### The payout sum over a list of winning bets -/

theorem sum_map_winnerPayout (l : List Bet) (W L F : ℚ) :
    (l.map (fun b => winnerPayout b.amount W L F)).sum
      = (l.map Bet.amount).sum + (l.map Bet.amount).sum / W * (L - F) := by
  induction l with
  | nil => simp
  | cons b t ih =>
    rw [List.map_cons, List.sum_cons, ih, List.map_cons, List.sum_cons]
    unfold winnerPayout
    ring

/-! ### Branch shapes of the settlement engine -/

theorem resolveMarket_eq_normal (db : DB) (mid : Nat) (w : String) (market : Market)
    (hm : db.findMarket mid = some market)
    (hr : market.isResolved = false)
    (hA : market.poolA ≠ 0) (hB : market.poolB ≠ 0) :
    resolveMarket db mid w = .ok (normalSettle db mid market (winLetterOf w market)) := by
  unfold resolveMarket normalSettle
  rw [hm]
  simp only [hr, Bool.false_eq_true, if_false]
  rw [if_neg (by rintro (h | h); exacts [hA h, hB h])]

theorem resolveMarket_eq_refund (db : DB) (mid : Nat) (w : String) (market : Market)
    (hm : db.findMarket mid = some market)
    (hr : market.isResolved = false)
    (h0 : market.poolA = 0 ∨ market.poolB = 0) :
    resolveMarket db mid w = .ok (refundSettle db mid) := by
  unfold resolveMarket refundSettle
  rw [hm]
  simp only [hr, Bool.false_eq_true, if_false]
  rw [if_pos h0]

theorem winLetterOf_cases (w : String) (m : Market) :
    winLetterOf w m = "A" ∨ winLetterOf w m = "B" := by
  unfold winLetterOf
  split
  · exact Or.inl rfl
  · exact Or.inr rfl

theorem creatorRoyaltyOf_nonneg (t L : ℚ) (h : 0 ≤ L) : 0 ≤ creatorRoyaltyOf t L := by
  unfold creatorRoyaltyOf
  split
  · exact le_refl 0
  · positivity

theorem feeSplit_nonneg (t L : ℚ) (h : 0 ≤ L) :
    0 ≤ totalFeeOf t L - creatorRoyaltyOf t L := by
  unfold totalFeeOf creatorRoyaltyOf
  split
  · norm_num
  · nlinarith

theorem totalBalance_normalSettle (db : DB) (mid : Nat) (market : Market) (wl : String)
    (hS : sumStakesOn db.bets mid wl = if wl = "A" then market.poolA else market.poolB)
    (hWpos : 0 < (if wl = "A" then market.poolA else market.poolB))
    (hLpos : 0 < (if wl = "A" then market.poolB else market.poolA))
    (hcount : ∀ b ∈ db.bets, b.marketId = mid → db.users.countP (fun u => u.id == b.userId) = 1)
    (hadmin : db.users.countP (fun u => u.email == ADMIN_EMAIL) = 1)
    (hcreator : ∀ cid, market.creatorId = some cid → cid ≠ 0 →
        db.users.countP (fun u => u.id == cid) = 1) :
    (normalSettle db mid market wl).totalBalance
      = db.totalBalance
        + ((if wl = "A" then market.poolA else market.poolB)
           + (if wl = "A" then market.poolB else market.poolA)
           - (if jsIdTruthy market.creatorId then 0
              else creatorRoyaltyOf (market.poolA + market.poolB)
                     (if wl = "A" then market.poolB else market.poolA))) := by
  simp only [normalSettle, setResolved_bets]
  set W := (if wl = "A" then market.poolA else market.poolB) with hW
  set L := (if wl = "A" then market.poolB else market.poolA) with hL
  set F := totalFeeOf (market.poolA + market.poolB) L with hF
  set R := creatorRoyaltyOf (market.poolA + market.poolB) L with hR
  set db1 := db.setResolved mid wl with hdb1
  set wbets := List.filter (fun b => b.marketId == mid && b.chosenOption == wl) db.bets with hwb
  set db2 := (if 0 < R ∧ jsIdTruthy market.creatorId = true
              then db1.creditUser (market.creatorId.getD 0) R else db1) with hdb2
  set db3 := (if 0 < F - R then db2.creditEmail ADMIN_EMAIL (F - R) else db2) with hdb3
  have hu1 : db1.users = db.users := rfl
  have hRnn : 0 ≤ R := creatorRoyaltyOf_nonneg _ _ hLpos.le
  have hFRnn : 0 ≤ F - R := feeSplit_nonneg _ _ hLpos.le
  have hc2 : ∀ v, db2.users.countP (fun u => u.id == v)
      = db.users.countP (fun u => u.id == v) := by
    intro v
    rw [hdb2]
    split
    · rw [countPid_creditUser, hu1]
    · rw [hu1]
  have hce2 : db2.users.countP (fun u => u.email == ADMIN_EMAIL)
      = db.users.countP (fun u => u.email == ADMIN_EMAIL) := by
    rw [hdb2]
    split
    · rw [countPemail_creditUser, hu1]
    · rw [hu1]
  have hc3 : ∀ v, db3.users.countP (fun u => u.id == v)
      = db.users.countP (fun u => u.id == v) := by
    intro v
    rw [hdb3]
    split
    · rw [countPid_creditEmail, hc2]
    · rw [hc2]
  have htb1 : db1.totalBalance = db.totalBalance := rfl
  have htb2 : db2.totalBalance
      = db.totalBalance + (if jsIdTruthy market.creatorId = true then R else 0) := by
    rw [hdb2]
    split
    · rename_i h
      obtain ⟨hRpos, htr⟩ := h
      cases hcid : market.creatorId with
      | none => rw [hcid] at htr; simp [jsIdTruthy] at htr
      | some c =>
        have hc0 : c ≠ 0 := by
          rw [hcid] at htr
          simpa [jsIdTruthy] using htr
        rw [totalBalance_creditUser, hu1]
        simp only [hcid, Option.getD]
        rw [hcreator c hcid hc0, htb1]
        have hjt : jsIdTruthy (some c) = true := by simp [jsIdTruthy, hc0]
        rw [if_pos hjt]
        push_cast
        ring
    · rename_i h
      rw [htb1]
      by_cases htr : jsIdTruthy market.creatorId = true
      · have hR0 : R = 0 := by
          have : ¬ 0 < R := fun hp => h ⟨hp, htr⟩
          linarith [hRnn]
        simp [htr, hR0]
      · simp [htr]
  have htb3 : db3.totalBalance = db2.totalBalance + (F - R) := by
    rw [hdb3]
    split
    · rw [totalBalance_creditEmail, hce2, hadmin]
      push_cast
      ring
    · rename_i h
      have : F - R = 0 := by linarith [not_lt.mp h]
      rw [this]
      ring
  have hcounts3 : ∀ b ∈ wbets, db3.users.countP (fun u => u.id == b.userId) = 1 := by
    intro b hb
    rw [hc3]
    rw [hwb] at hb
    obtain ⟨hmem, hpred⟩ := List.mem_filter.mp hb
    have hmid : b.marketId = mid := by
      have := (Bool.and_eq_true _ _).mp hpred
      simpa using this.1
    exact hcount b hmem hmid
  rw [totalBalance_creditFold wbets _ db3 hcounts3, htb3, htb2]
  have hsum : (wbets.map (fun b => winnerPayout b.amount W L F)).sum = W + (L - F) := by
    rw [sum_map_winnerPayout]
    have hSW : (wbets.map Bet.amount).sum = W := hS
    rw [hSW, div_self (ne_of_gt hWpos)]
    ring
  rw [hsum]
  by_cases htr : jsIdTruthy market.creatorId = true
  · rw [if_pos htr, if_pos htr]
    ring
  · rw [if_neg htr, if_neg htr]
    ring

/-! ### Claims -/

/-- C1 (counterexample): on a market with winPool = 600, losePool = 400
(total 1000, so the fee applies) and **no creator recorded**, the normal
settlement of src/index.js issues credits summing to 998, not
winPool + losePool = 1000: the 0.5% creator royalty (2 units) is
subtracted from the admin cut but credited to nobody.  All balances start
at 0, so the post-state total balance is exactly the sum of credits
issued. -/
theorem c1_pool_conservation_counterexample :
    (resolveMarket exC1db 1 "a").map DB.totalBalance = .ok 998
    ∧ (exC1db.findMarket 1).map (fun m => m.poolA + m.poolB) = some 1000
    ∧ exC1db.totalBalance = 0
    ∧ (998 : ℚ) ≠ 1000 := by
  have e1 : ("alice@x" = "nguitui.kamau@gmail.com") = False := by decide
  have e2 : ("bob@x" = "nguitui.kamau@gmail.com") = False := by decide
  have e3 : ("nguitui.kamau@gmail.com" = "nguitui.kamau@gmail.com") = True := by decide
  refine ⟨?_, ?_, ?_, by norm_num⟩
  · rw [resolveMarket_eq_normal exC1db 1 "a" mkYesNo rfl rfl
      (by norm_num [mkYesNo]) (by norm_num [mkYesNo])]
    have h1 : winLetterOf "a" mkYesNo = "A" := by decide
    rw [h1]
    show Except.ok (normalSettle exC1db 1 mkYesNo "A").totalBalance = Except.ok 998
    norm_num [normalSettle, exC1db, mkYesNo, DB.setResolved, DB.creditUser, DB.creditEmail,
      DB.totalBalance, totalFeeOf, creatorRoyaltyOf, winnerPayout, jsIdTruthy, ADMIN_EMAIL,
      List.filter, List.foldl, e1, e2, e3]
  · rw [show exC1db.findMarket 1 = some mkYesNo from rfl]
    norm_num [mkYesNo]
  · norm_num [exC1db, DB.totalBalance]

/-- C2 (code evaluated at the failing inputs): the outcome normalization
of src/index.js line 317 is not the case-insensitive two-label match the
spec describes.  On a market with labels "Yes"/"No": the input "yes"
(option A's own label, lower-cased) resolves the market with winner "B",
and the input "garbage" (matching neither option) also resolves it with
winner "B" instead of failing with `invalidOutcome`; the earlier
revisions of the same handler (src/unnamed/part_000) resolve "yes" to
"A" and reject "garbage" with `invalidOutcome`. -/
theorem c2_outcome_normalization_bug :
    (resolveMarket exC2db 1 "yes").map (fun d => (d.findMarket 1).map Market.winningOption)
      = .ok (some "B")
    ∧ (resolveMarket exC2db 1 "garbage").map (fun d => (d.findMarket 1).map Market.winningOption)
      = .ok (some "B")
    ∧ (resolveMarketV0 exC2db 1 "yes").map (fun d => (d.findMarket 1).map Market.winningOption)
      = .ok (some "A")
    ∧ resolveMarketV0 exC2db 1 "garbage" = .error .invalidOutcome := by
  have e1 : ("alice@x" = "nguitui.kamau@gmail.com") = False := by decide
  have e2 : ("bob@x" = "nguitui.kamau@gmail.com") = False := by decide
  have e3 : ("nguitui.kamau@gmail.com" = "nguitui.kamau@gmail.com") = True := by decide
  refine ⟨?_, ?_, ?_, ?_⟩
  · rw [resolveMarket_eq_normal exC2db 1 "yes" mkYesNo rfl rfl
      (by norm_num [mkYesNo]) (by norm_num [mkYesNo])]
    have h1 : winLetterOf "yes" mkYesNo = "B" := by decide
    rw [h1]
    show Except.ok (((normalSettle exC2db 1 mkYesNo "B").findMarket 1).map Market.winningOption)
        = Except.ok (some "B")
    norm_num [normalSettle, exC2db, mkYesNo, DB.setResolved, DB.creditUser, DB.creditEmail,
      DB.findMarket, totalFeeOf, creatorRoyaltyOf, winnerPayout, jsIdTruthy, ADMIN_EMAIL,
      List.filter, List.foldl, List.find?, e1, e2, e3]
  · rw [resolveMarket_eq_normal exC2db 1 "garbage" mkYesNo rfl rfl
      (by norm_num [mkYesNo]) (by norm_num [mkYesNo])]
    have h1 : winLetterOf "garbage" mkYesNo = "B" := by decide
    rw [h1]
    show Except.ok (((normalSettle exC2db 1 mkYesNo "B").findMarket 1).map Market.winningOption)
        = Except.ok (some "B")
    norm_num [normalSettle, exC2db, mkYesNo, DB.setResolved, DB.creditUser, DB.creditEmail,
      DB.findMarket, totalFeeOf, creatorRoyaltyOf, winnerPayout, jsIdTruthy, ADMIN_EMAIL,
      List.filter, List.foldl, List.find?, e1, e2, e3]
  · have hv : winLetterV0 "yes" mkYesNo = .ok "A" := by rfl
    simp only [resolveMarketV0]
    rw [show exC2db.findMarket 1 = some mkYesNo from rfl]
    simp only [show mkYesNo.isResolved = false from rfl, Bool.false_eq_true, if_false, hv]
    rw [if_neg (by norm_num [mkYesNo])]
    norm_num [exC2db, mkYesNo, DB.setResolved, DB.creditUser, DB.creditEmail,
      DB.findMarket, totalFeeOf, winnerPayout, ADMIN_EMAIL, Except.map, Option.map,
      List.filter, List.foldl, List.find?, e1, e2, e3]
  · have hv : winLetterV0 "garbage" mkYesNo = .error .invalidOutcome := by rfl
    simp only [resolveMarketV0]
    rw [show exC2db.findMarket 1 = some mkYesNo from rfl]
    simp only [show mkYesNo.isResolved = false from rfl, Bool.false_eq_true, if_false, hv]

/-- C5: resolving an already-resolved market fails with `alreadyResolved`
and performs no mutation: the transaction aborts before any write, so the
result carries no state at all and the store is left exactly as it was. -/
theorem c5_already_resolved_no_mutation (db : DB) (mid : Nat) (w : String) (market : Market)
    (hm : db.findMarket mid = some market) (hr : market.isResolved = true) :
    resolveMarket db mid w = .error .alreadyResolved := by
  unfold resolveMarket
  rw [hm]
  simp [hr]

theorem c5_witness :
    resolveMarket exC5db 1 "a" = .error .alreadyResolved :=
  c5_already_resolved_no_mutation exC5db 1 "a" exC5mkt rfl rfl

/-- C9 (code evaluated at the failing input): resolving a market id with
no market row does fail without mutation, but in src/index.js the failure
is the TypeError from dereferencing the undefined row
(`marketRes.rows[0].is_resolved`), surfaced as a generic 400 — not the
typed `marketNotFound` the spec's taxonomy prescribes and the earlier
revisions (src/unnamed/part_000) implement. -/
theorem c9_missing_market_error_kind :
    resolveMarket exC9db 7 "a" = .error .undefinedAccess
    ∧ resolveMarketV0 exC9db 7 "a" = .error .marketNotFound
    ∧ RErr.undefinedAccess ≠ RErr.marketNotFound := by
  refine ⟨rfl, rfl, by decide⟩


theorem filter_swap_preds (l : List Bet) (mid uid : Nat) :
    (l.filter (fun b => b.marketId == mid)).filter (fun b => b.userId == uid)
      = l.filter (fun b => b.marketId == mid && b.userId == uid) := by
  rw [List.filter_filter]
  exact List.filter_congr (fun x _ => Bool.and_comm _ _)

/-- C1 (amended): in a normal settlement with both pools positive, the sum
of all balance credits issued (winner payouts + admin cut + creator
royalty) equals winPool + losePool **when a creator with nonzero id is
recorded on the market** (or the fee is zero); when no creator is
recorded and the fee applies, the credits sum to
winPool + losePool − 0.5% of losePool: the royalty is withheld from the
admin cut but credited to nobody.  Stated over the total of all user
balances, assuming row-consistency (each pool equals the sum of its
bets' stakes, each referenced account exists exactly once). -/
theorem c1_pool_conservation_amended (db : DB) (mid : Nat) (w : String) (market : Market)
    (hm : db.findMarket mid = some market)
    (hr : market.isResolved = false)
    (hA : 0 < market.poolA) (hB : 0 < market.poolB)
    (hconsA : sumStakesOn db.bets mid "A" = market.poolA)
    (hconsB : sumStakesOn db.bets mid "B" = market.poolB)
    (hcount : ∀ b ∈ db.bets, b.marketId = mid →
        db.users.countP (fun u => u.id == b.userId) = 1)
    (hadmin : db.users.countP (fun u => u.email == ADMIN_EMAIL) = 1)
    (hcreator : ∀ cid, market.creatorId = some cid → cid ≠ 0 →
        db.users.countP (fun u => u.id == cid) = 1) :
    (resolveMarket db mid w).map DB.totalBalance
      = .ok (db.totalBalance + (market.poolA + market.poolB
          - (if jsIdTruthy market.creatorId then 0
             else creatorRoyaltyOf (market.poolA + market.poolB)
                    (if winLetterOf w market = "A" then market.poolB else market.poolA)))) := by
  rw [resolveMarket_eq_normal db mid w market hm hr (ne_of_gt hA) (ne_of_gt hB)]
  have hok : ∀ x : DB,
      Except.map DB.totalBalance (Except.ok x : Except RErr DB) = Except.ok x.totalBalance :=
    fun _ => rfl
  rw [hok]
  rcases winLetterOf_cases w market with hwl | hwl <;> rw [hwl]
  · rw [totalBalance_normalSettle db mid market "A"
      (by simpa using hconsA) (by simpa using hA) (by simpa using hB) hcount hadmin hcreator]
    norm_num
  · rw [totalBalance_normalSettle db mid market "B"
      (by simpa using hconsB) (by simpa using hB) (by simpa using hA) hcount hadmin hcreator]
    have hne : ("B" : String) ≠ "A" := by decide
    simp only [if_neg hne]
    rw [add_comm market.poolB market.poolA]

theorem c1_witness :
    (resolveMarket exC1wdb 1 "a").map DB.totalBalance = .ok 1000 := by
  have h := c1_pool_conservation_amended exC1wdb 1 "a" exC1wmkt
    rfl rfl (by norm_num [exC1wmkt]) (by norm_num [exC1wmkt])
    (by
      have e4 : (("B" : String) == "A") = false := by decide
      norm_num [sumStakesOn, exC1wdb, exC1wmkt, List.filter, e4])
    (by
      have e5 : (("A" : String) == "B") = false := by decide
      norm_num [sumStakesOn, exC1wdb, exC1wmkt, List.filter, e5])
    (by
      intro b hb hmid
      simp only [exC1wdb, List.mem_cons, List.not_mem_nil, or_false] at hb
      rcases hb with h | h <;> subst h <;> decide)
    (by decide)
    (by intro cid hcid hc0; simp only [exC1wmkt] at hcid; injection hcid with h; subst h; decide)
  rw [h]
  norm_num [exC1wdb, exC1wmkt, DB.totalBalance, jsIdTruthy]

/-- C4: if either pool is exactly zero, resolveMarket refunds every bet's
stake to its owner, marks the market resolved with winning option
"Refunded", and charges no fee: the total credited equals the
pre-resolution total pool and each user's balance rises by exactly the
sum of their stakes on the market (their original stake, for a
single-bet user). -/
theorem c4_refund_exactness (db : DB) (mid : Nat) (w : String) (market : Market)
    (hm : db.findMarket mid = some market)
    (hr : market.isResolved = false)
    (h0 : market.poolA = 0 ∨ market.poolB = 0)
    (hcons : sumStakesAll db.bets mid = market.poolA + market.poolB)
    (hcount : ∀ b ∈ db.bets, b.marketId = mid →
        db.users.countP (fun u => u.id == b.userId) = 1) :
    (resolveMarket db mid w).map DB.totalBalance
      = .ok (db.totalBalance + (market.poolA + market.poolB))
    ∧ (resolveMarket db mid w).map (fun d => d.findMarket mid)
        = .ok (some { market with isResolved := true, winningOption := "Refunded" })
    ∧ ∀ uid, (db.users.find? (fun u => u.id == uid)).isSome →
        (resolveMarket db mid w).map (fun d => d.balanceOf uid)
          = .ok (db.balanceOf uid + sumStakesOfUser db.bets mid uid) := by
  rw [resolveMarket_eq_refund db mid w market hm hr h0]
  have hcnt : ∀ b ∈ db.bets.filter (fun b => b.marketId == mid),
      db.users.countP (fun u => u.id == b.userId) = 1 := by
    intro b hb
    obtain ⟨hmem, hpred⟩ := List.mem_filter.mp hb
    exact hcount b hmem (by simpa using hpred)
  refine ⟨?_, ?_, ?_⟩
  · show Except.ok (refundSettle db mid).totalBalance = _
    rw [show (refundSettle db mid).totalBalance
        = ((db.bets.filter (fun b => b.marketId == mid)).foldl
            (fun d b => d.creditUser b.userId b.amount) db).totalBalance from rfl]
    rw [totalBalance_creditFold _ _ db hcnt]
    rw [show ((db.bets.filter (fun b => b.marketId == mid)).map
        (fun b => b.amount)).sum = sumStakesAll db.bets mid from rfl]
    rw [hcons]
  · show Except.ok ((refundSettle db mid).findMarket mid) = _
    unfold refundSettle
    rw [findMarket_setResolved]
    rw [show ((db.bets.filter (fun b => b.marketId == mid)).foldl
          (fun d b => d.creditUser b.userId b.amount) db).findMarket mid
        = db.findMarket mid from by
      unfold DB.findMarket
      rw [creditFold_markets]]
    rw [hm, Option.map_some']
    have hid := List.find?_some
      (show db.markets.find? (fun m => m.id == mid) = some market from hm)
    simp only [hid, if_true]
  · intro uid hex
    show Except.ok ((refundSettle db mid).balanceOf uid) = _
    rw [show (refundSettle db mid).balanceOf uid
        = ((db.bets.filter (fun b => b.marketId == mid)).foldl
            (fun d b => d.creditUser b.userId b.amount) db).balanceOf uid from rfl]
    rw [balanceOf_creditFold _ _ uid db hex]
    rw [filter_swap_preds]
    rfl

theorem c4_witness :
    (resolveMarket exC4db 1 "b").map DB.totalBalance = .ok 500
    ∧ (resolveMarket exC4db 1 "b").map (fun d => d.findMarket 1)
        = .ok (some { exC4mkt with isResolved := true, winningOption := "Refunded" })
    ∧ (resolveMarket exC4db 1 "b").map (fun d => d.balanceOf 1) = .ok 300 := by
  obtain ⟨h1, h2, h3⟩ := c4_refund_exactness exC4db 1 "b" exC4mkt rfl rfl
    (Or.inl (by norm_num [exC4mkt]))
    (by norm_num [sumStakesAll, exC4db, exC4mkt, List.filter])
    (by
      intro b hb hmid
      simp only [exC4db, List.mem_cons, List.not_mem_nil, or_false] at hb
      rcases hb with h | h <;> subst h <;> decide)
  refine ⟨?_, ?_, ?_⟩
  · rw [h1]
    norm_num [exC4db, exC4mkt, DB.totalBalance]
  · exact h2
  · rw [h3 1 rfl]
    have e21 : ((2 : Nat) == 1) = false := by decide
    norm_num [exC4db, DB.balanceOf, sumStakesOfUser, List.filter, List.find?, e21]


/-- How a normal settlement moves one bettor's balance: a user who is not
the admin wallet and not the market's creator is credited exactly the
winner payout of each of their winning bets on the market. -/
theorem balanceOf_normalSettle (db : DB) (mid : Nat) (market : Market) (wl : String) (uid : Nat)
    (hex : (db.users.find? (fun u => u.id == uid)).isSome = true)
    (hnadmin : ∀ u, db.users.find? (fun u => u.id == uid) = some u → u.email ≠ ADMIN_EMAIL)
    (hncreator : ∀ cid, market.creatorId = some cid → cid ≠ uid) :
    (normalSettle db mid market wl).balanceOf uid
      = db.balanceOf uid
        + (((db.bets.filter (fun b => b.marketId == mid && b.chosenOption == wl)).filter
              (fun b => b.userId == uid)).map
            (fun b => winnerPayout b.amount
              (if wl = "A" then market.poolA else market.poolB)
              (if wl = "A" then market.poolB else market.poolA)
              (totalFeeOf (market.poolA + market.poolB)
                (if wl = "A" then market.poolB else market.poolA)))).sum := by
  simp only [normalSettle, setResolved_bets]
  set W := (if wl = "A" then market.poolA else market.poolB) with hW
  set L := (if wl = "A" then market.poolB else market.poolA) with hL
  set F := totalFeeOf (market.poolA + market.poolB) L with hF
  set R := creatorRoyaltyOf (market.poolA + market.poolB) L with hR
  set db1 := db.setResolved mid wl with hdb1
  set wbets := List.filter (fun b => b.marketId == mid && b.chosenOption == wl) db.bets with hwb
  set db2 := (if 0 < R ∧ jsIdTruthy market.creatorId = true
              then db1.creditUser (market.creatorId.getD 0) R else db1) with hdb2
  set db3 := (if 0 < F - R then db2.creditEmail ADMIN_EMAIL (F - R) else db2) with hdb3
  have hu1 : db1.users = db.users := rfl
  obtain ⟨u, hu, hue⟩ : ∃ u, db.users.find? (fun u => u.id == uid) = some u
      ∧ u.email ≠ ADMIN_EMAIL := by
    cases hfu : db.users.find? (fun u => u.id == uid) with
    | none => rw [hfu] at hex; simp at hex
    | some u => exact ⟨u, rfl, hnadmin u hfu⟩
  have huid : u.id = uid := by simpa using List.find?_some hu
  have h2find : db2.users.find? (fun x => x.id == uid) = some u := by
    rw [hdb2]
    split
    · rename_i h
      obtain ⟨hRpos, htr⟩ := h
      cases hcid : market.creatorId with
      | none => rw [hcid] at htr; simp [jsIdTruthy] at htr
      | some c =>
        rw [findId_creditUser, hu1, hu, Option.map_some']
        simp only [Option.getD]
        have hcne : ¬ u.id = c := by
          intro hc
          exact (hncreator c hcid) (by rw [← hc, huid])
        simp [hcne]
    · rw [hu1, hu]
  have h2bal : db2.balanceOf uid = db.balanceOf uid := by
    rw [hdb2]
    split
    · rename_i h
      obtain ⟨hRpos, htr⟩ := h
      cases hcid : market.creatorId with
      | none => rw [hcid] at htr; simp [jsIdTruthy] at htr
      | some c =>
        rw [balanceOf_creditUser]
        rw [if_neg]
        · rfl
        · rintro ⟨-, hc⟩
          simp only [Option.getD] at hc
          exact (hncreator c hcid) hc.symm
    · rfl
  have h3bal : db3.balanceOf uid = db.balanceOf uid := by
    rw [hdb3]
    split
    · rw [balanceOf_creditEmail, h2find]
      simp [hue, h2bal]
    · exact h2bal
  have h3ex : (db3.users.find? (fun x => x.id == uid)).isSome = true := by
    rw [hdb3]
    split
    · rw [findIdIsSome_creditEmail, h2find]
      rfl
    · rw [h2find]
      rfl
  rw [balanceOf_creditFold wbets _ uid db3 h3ex, h3bal]

/-- C3: in a normal settlement, a bettor whose single winning bet on the
market has stake `b.amount` is credited exactly
`stake + (stake / winPool) × (losePool − houseCut)` where `houseCut` is
the step fee (`totalFeeOf`); the 600/400 market with a 300 stake giving
490 is the witness instance. -/
theorem c3_winner_payout_formula (db : DB) (mid : Nat) (w : String) (market : Market)
    (b : Bet) (uid : Nat)
    (hm : db.findMarket mid = some market)
    (hr : market.isResolved = false)
    (hA : 0 < market.poolA) (hB : 0 < market.poolB)
    (hone : (db.bets.filter
        (fun x => x.marketId == mid && x.chosenOption == winLetterOf w market)).filter
        (fun x => x.userId == uid) = [b])
    (hex : (db.users.find? (fun u => u.id == uid)).isSome = true)
    (hnadmin : ∀ u, db.users.find? (fun u => u.id == uid) = some u → u.email ≠ ADMIN_EMAIL)
    (hncreator : ∀ cid, market.creatorId = some cid → cid ≠ uid) :
    (resolveMarket db mid w).map (fun d => d.balanceOf uid)
      = .ok (db.balanceOf uid
          + (b.amount + b.amount
              / (if winLetterOf w market = "A" then market.poolA else market.poolB)
              * ((if winLetterOf w market = "A" then market.poolB else market.poolA)
                 - totalFeeOf (market.poolA + market.poolB)
                     (if winLetterOf w market = "A" then market.poolB else market.poolA)))) := by
  rw [resolveMarket_eq_normal db mid w market hm hr (ne_of_gt hA) (ne_of_gt hB)]
  have hok : ∀ x : DB,
      Except.map (fun d => DB.balanceOf d uid) (Except.ok x : Except RErr DB)
        = Except.ok (x.balanceOf uid) := fun _ => rfl
  rw [hok]
  rw [balanceOf_normalSettle db mid market (winLetterOf w market) uid hex hnadmin hncreator]
  rw [hone]
  simp [winnerPayout]


theorem c3_witness :
    (resolveMarket exC3db 1 "a").map (fun d => d.balanceOf 1) = .ok 490 := by
  have h := c3_winner_payout_formula exC3db 1 "a" mkYesNo
    { id := 1, userId := 1, marketId := 1, chosenOption := "A", amount := 300 } 1
    rfl rfl (by norm_num [mkYesNo]) (by norm_num [mkYesNo]) rfl rfl
    (by
      intro u hu
      rw [show exC3db.users.find? (fun u => u.id == 1)
          = some { id := 1, email := "alice@x", balance := 0 } from rfl] at hu
      injection hu with h2
      rw [← h2]
      decide)
    (by
      intro cid hcid
      exact Option.noConfusion hcid)
  rw [h]
  rw [show winLetterOf "a" mkYesNo = "A" from rfl]
  norm_num [totalFeeOf, exC3db, DB.balanceOf, List.find?, mkYesNo]


/-- Where the fee lands: in a normal settlement of a market with a
recorded creator, the creator's balance plus the admin wallet's balance
rise jointly by exactly the step fee `totalFeeOf` (0 below the 1000
threshold, 5% of the losing pool at or above it). -/
theorem feeDest_normalSettle (db : DB) (mid : Nat) (market : Market) (wl : String)
    (cid : Nat) (cu au : User)
    (hLpos : 0 < (if wl = "A" then market.poolB else market.poolA))
    (hcid : market.creatorId = some cid) (hc0 : cid ≠ 0)
    (hcu : db.users.find? (fun u => u.id == cid) = some cu)
    (hcue : cu.email ≠ ADMIN_EMAIL)
    (hau : db.users.find? (fun u => u.email == ADMIN_EMAIL) = some au)
    (haid : ¬ au.id = cid)
    (hnowin : ∀ b ∈ db.bets.filter (fun b => b.marketId == mid && b.chosenOption == wl),
        b.userId ≠ cid ∧ b.userId ≠ au.id) :
    (normalSettle db mid market wl).balanceOf cid
      + (normalSettle db mid market wl).balanceOfEmail ADMIN_EMAIL
      = db.balanceOf cid + db.balanceOfEmail ADMIN_EMAIL
        + totalFeeOf (market.poolA + market.poolB)
            (if wl = "A" then market.poolB else market.poolA) := by
  simp only [normalSettle, setResolved_bets]
  set W := (if wl = "A" then market.poolA else market.poolB) with hW
  set L := (if wl = "A" then market.poolB else market.poolA) with hL
  set F := totalFeeOf (market.poolA + market.poolB) L with hF
  set R := creatorRoyaltyOf (market.poolA + market.poolB) L with hR
  set db1 := db.setResolved mid wl with hdb1
  set wbets := List.filter (fun b => b.marketId == mid && b.chosenOption == wl) db.bets with hwb
  set db2 := (if 0 < R ∧ jsIdTruthy market.creatorId = true
              then db1.creditUser (market.creatorId.getD 0) R else db1) with hdb2
  set db3 := (if 0 < F - R then db2.creditEmail ADMIN_EMAIL (F - R) else db2) with hdb3
  have hu1 : db1.users = db.users := rfl
  have hRnn : 0 ≤ R := creatorRoyaltyOf_nonneg _ _ hLpos.le
  have hFRnn : 0 ≤ F - R := feeSplit_nonneg _ _ hLpos.le
  have hb2 : db2.balanceOf cid = db.balanceOf cid + R := by
    rw [hdb2]
    split
    · rw [balanceOf_creditUser, hcid]
      simp only [Option.getD]
      rw [if_pos ⟨by rw [hu1, hcu]; rfl, by trivial⟩]
      rfl
    · rename_i h
      have hR0 : R = 0 := by
        have hjt : jsIdTruthy market.creatorId = true := by
          rw [hcid]
          simp [jsIdTruthy, hc0]
        have : ¬ 0 < R := fun hp => h ⟨hp, hjt⟩
        linarith
      rw [hR0]
      simp only [add_zero]
      rfl
  have h2au : db2.users.find? (fun x => x.email == ADMIN_EMAIL) = some au := by
    rw [hdb2]
    split
    · rw [findEmail_creditUser, hu1, hau, Option.map_some']
      have hne : ¬ (au.id == market.creatorId.getD 0) = true := by
        rw [hcid]
        simp only [Option.getD, beq_iff_eq]
        exact haid
      simp [hne]
    · rw [hu1, hau]
  have h2cuE : ∃ cu2, db2.users.find? (fun x => x.id == cid) = some cu2
      ∧ cu2.email = cu.email := by
    rw [hdb2]
    split
    · rw [findId_creditUser, hu1, hcu, Option.map_some']
      refine ⟨_, rfl, ?_⟩
      split <;> rfl
    · exact ⟨cu, by rw [hu1, hcu], rfl⟩
  have hb2admin : db2.balanceOfEmail ADMIN_EMAIL = db.balanceOfEmail ADMIN_EMAIL := by
    rw [hdb2]
    split
    · rw [balanceOfEmail_creditUser, hu1, hau]
      have hne : ¬ au.id = market.creatorId.getD 0 := by
        rw [hcid]
        simp only [Option.getD]
        exact haid
      simp [hne]
      rfl
    · rfl
  have hb3cid : db3.balanceOf cid = db2.balanceOf cid := by
    obtain ⟨cu2, hcu2, hcu2e⟩ := h2cuE
    rw [hdb3]
    split
    · rw [balanceOf_creditEmail, hcu2]
      simp [hcu2e, hcue]
    · rfl
  have hb3admin : db3.balanceOfEmail ADMIN_EMAIL
      = db2.balanceOfEmail ADMIN_EMAIL + (F - R) := by
    rw [hdb3]
    split
    · rw [balanceOfEmail_creditEmail]
      rw [if_pos ⟨by rw [h2au]; rfl, by trivial⟩]
    · rename_i h
      have h0 : F - R = 0 := by linarith [not_lt.mp h]
      rw [h0]
      ring
  have h3auE : ∃ au3, db3.users.find? (fun x => x.email == ADMIN_EMAIL) = some au3
      ∧ au3.id = au.id := by
    rw [hdb3]
    split
    · rw [findEmail_creditEmail, h2au, Option.map_some']
      refine ⟨_, rfl, ?_⟩
      split <;> rfl
    · exact ⟨au, h2au, rfl⟩
  have h3cid_ex : (db3.users.find? (fun x => x.id == cid)).isSome = true := by
    obtain ⟨cu2, hcu2, -⟩ := h2cuE
    rw [hdb3]
    split
    · rw [findIdIsSome_creditEmail, hcu2]
      rfl
    · rw [hcu2]
      rfl
  have hfold_cid :
      (wbets.foldl (fun d b => d.creditUser b.userId (winnerPayout b.amount W L F)) db3).balanceOf cid
        = db3.balanceOf cid := by
    rw [balanceOf_creditFold wbets _ cid db3 h3cid_ex]
    have hnil : wbets.filter (fun b => b.userId == cid) = [] := by
      rw [List.filter_eq_nil_iff]
      intro b hb
      simpa using (hnowin b hb).1
    rw [hnil]
    simp
  have hfold_admin :
      (wbets.foldl (fun d b => d.creditUser b.userId (winnerPayout b.amount W L F))
          db3).balanceOfEmail ADMIN_EMAIL
        = db3.balanceOfEmail ADMIN_EMAIL := by
    obtain ⟨au3, hau3, hau3id⟩ := h3auE
    exact balanceOfEmail_creditFold_ne wbets _ ADMIN_EMAIL db3 au3 hau3
      (fun b hb => by rw [hau3id]; exact (hnowin b hb).2)
  rw [hfold_cid, hfold_admin, hb3cid, hb3admin, hb2, hb2admin]
  ring

/-- C6: the settlement fee is a step function of the total pool — zero
below 1000, 5% of the losing pool at or above 1000 — observed as the
joint balance gain of the fee's two destinations (market creator and
admin wallet). -/
theorem c6_fee_step_function (db : DB) (mid : Nat) (w : String) (market : Market)
    (cid : Nat) (cu au : User)
    (hm : db.findMarket mid = some market)
    (hr : market.isResolved = false)
    (hA : 0 < market.poolA) (hB : 0 < market.poolB)
    (hcid : market.creatorId = some cid) (hc0 : cid ≠ 0)
    (hcu : db.users.find? (fun u => u.id == cid) = some cu)
    (hcue : cu.email ≠ ADMIN_EMAIL)
    (hau : db.users.find? (fun u => u.email == ADMIN_EMAIL) = some au)
    (haid : ¬ au.id = cid)
    (hnowin : ∀ b ∈ db.bets.filter
        (fun b => b.marketId == mid && b.chosenOption == winLetterOf w market),
        b.userId ≠ cid ∧ b.userId ≠ au.id) :
    (resolveMarket db mid w).map (fun d => d.balanceOf cid + d.balanceOfEmail ADMIN_EMAIL)
      = .ok (db.balanceOf cid + db.balanceOfEmail ADMIN_EMAIL
          + (if market.poolA + market.poolB < 1000 then 0
             else (if winLetterOf w market = "A" then market.poolB else market.poolA)
                    * (5 / 100))) := by
  rw [resolveMarket_eq_normal db mid w market hm hr (ne_of_gt hA) (ne_of_gt hB)]
  have hok : ∀ x : DB,
      Except.map (fun d => DB.balanceOf d cid + DB.balanceOfEmail d ADMIN_EMAIL)
        (Except.ok x : Except RErr DB)
        = Except.ok (x.balanceOf cid + x.balanceOfEmail ADMIN_EMAIL) := fun _ => rfl
  rw [hok]
  have hLpos : 0 < (if winLetterOf w market = "A" then market.poolB else market.poolA) := by
    rcases winLetterOf_cases w market with h | h <;> rw [h]
    · simpa using hB
    · have hne : ("B" : String) ≠ "A" := by decide
      rw [if_neg hne]
      exact hA
  rw [feeDest_normalSettle db mid market (winLetterOf w market) cid cu au hLpos hcid hc0
    hcu hcue hau haid hnowin]
  rw [totalFeeOf]

theorem c6_witness :
    (resolveMarket exC1wdb 1 "a").map (fun d => d.balanceOf 3 + d.balanceOfEmail ADMIN_EMAIL)
      = .ok 20 := by
  have h := c6_fee_step_function exC1wdb 1 "a" exC1wmkt
    3 { id := 3, email := "carol@x", balance := 0 } { id := 9, email := ADMIN_EMAIL, balance := 0 }
    rfl rfl (by norm_num [exC1wmkt]) (by norm_num [exC1wmkt]) rfl (by decide) rfl (by decide)
    rfl (by decide)
    (by
      intro b hb
      rw [show exC1wdb.bets.filter
            (fun b => b.marketId == 1 && b.chosenOption == winLetterOf "a" exC1wmkt)
          = [{ id := 1, userId := 1, marketId := 1, chosenOption := "A", amount := 600 }]
        from rfl] at hb
      simp only [List.mem_cons, List.not_mem_nil, or_false] at hb
      subst hb
      exact ⟨by decide, by decide⟩)
  rw [h]
  rw [show winLetterOf "a" exC1wmkt = "A" from rfl]
  rw [show exC1wdb.balanceOf 3 = 0 from rfl,
    show exC1wdb.balanceOfEmail ADMIN_EMAIL = 0 from rfl]
  norm_num [exC1wmkt]


/-- The markets table after a normal settlement is just the
`setResolved` update: none of the balance credits touch it. -/
theorem normalSettle_markets (db : DB) (mid : Nat) (market : Market) (wl : String) :
    (normalSettle db mid market wl).markets = (db.setResolved mid wl).markets := by
  simp only [normalSettle]
  rw [creditFold_markets, apply_ite DB.markets, creditEmail_markets, ite_self,
    apply_ite DB.markets, creditUser_markets, ite_self]

theorem findMarket_normalSettle (db : DB) (mid : Nat) (market : Market) (wl : String)
    (hm : db.findMarket mid = some market) :
    (normalSettle db mid market wl).findMarket mid
      = some { market with isResolved := true, winningOption := wl } := by
  unfold DB.findMarket
  rw [normalSettle_markets]
  have h := findMarket_setResolved db mid wl mid
  unfold DB.findMarket at h
  rw [h, show db.markets.find? (fun m => m.id == mid) = some market from hm,
    Option.map_some']
  have hid := List.find?_some
    (show db.markets.find? (fun m => m.id == mid) = some market from hm)
  simp only [hid, if_true]

theorem findMarket_refundSettle (db : DB) (mid : Nat) (market : Market)
    (hm : db.findMarket mid = some market) :
    (refundSettle db mid).findMarket mid
      = some { market with isResolved := true, winningOption := "Refunded" } := by
  unfold refundSettle
  rw [findMarket_setResolved]
  rw [show ((db.bets.filter (fun b => b.marketId == mid)).foldl
        (fun d b => d.creditUser b.userId b.amount) db).findMarket mid
      = db.findMarket mid from by
    unfold DB.findMarket
    rw [creditFold_markets]]
  rw [hm, Option.map_some']
  have hid := List.find?_some
    (show db.markets.find? (fun m => m.id == mid) = some market from hm)
  simp only [hid, if_true]

/-- Projection of a bet on the market row a normal settlement writes:
the `Won` branch reproduces exactly the settlement's own payout term. -/
theorem projectPayout_won (market : Market) (b : Bet) (wl : String)
    (hwl : wl = "A" ∨ wl = "B") (hb : b.chosenOption = wl) :
    projectPayout b { market with isResolved := true, winningOption := wl }
      = ("Won", winnerPayout b.amount
          (if wl = "A" then market.poolA else market.poolB)
          (if wl = "A" then market.poolB else market.poolA)
          (totalFeeOf (market.poolA + market.poolB)
            (if wl = "A" then market.poolB else market.poolA))) := by
  have e1 : (("A" : String) = "Refunded") = False := by decide
  have e2 : (("B" : String) = "Refunded") = False := by decide
  have e3 : (("B" : String) = "A") = False := by decide
  rcases hwl with h | h <;> subst h <;>
    simp only [projectPayout, winnerPayout, totalFeeOf, hb, e1, e2, e3, if_false,
      eq_self_iff_true, if_true, Prod.mk.injEq, true_and] <;>
    split_ifs <;>
    ring

theorem projectPayout_lost (market : Market) (b : Bet) (wl : String)
    (hwl : wl = "A" ∨ wl = "B") (hb : ¬ b.chosenOption = wl) :
    projectPayout b { market with isResolved := true, winningOption := wl }
      = ("Lost", 0) := by
  rcases hwl with h | h <;> subst h <;> simp [projectPayout, hb]

theorem projectPayout_refunded (market : Market) (b : Bet) :
    projectPayout b { market with isResolved := true, winningOption := "Refunded" }
      = ("Refunded", b.amount) := by
  simp [projectPayout]

theorem projectPayout_pending (market : Market) (b : Bet)
    (hr : market.isResolved = false) :
    projectPayout b market = ("Pending", 0) := by
  simp [projectPayout, hr]

/-- C7: the bet-history projection agrees with settlement.  For an
unresolved market the status is Pending with payout 0; after a normal
settlement a losing bet projects ("Lost", 0); a winning bet projects
("Won", p) where p is exactly the settlement's `winnerPayout` term and
exactly the amount credited to the bettor's balance; after a refund the
projection is ("Refunded", stake). -/
theorem c7_projection_settlement_agreement (db : DB) (mid : Nat) (w : String)
    (market : Market) (b : Bet) (uid : Nat)
    (hm : db.findMarket mid = some market) :
    (market.isResolved = false → projectPayout b market = ("Pending", 0))
    ∧ (market.isResolved = false → 0 < market.poolA → 0 < market.poolB →
        ¬ b.chosenOption = winLetterOf w market →
        (resolveMarket db mid w).map (fun d => (d.findMarket mid).map (projectPayout b))
          = .ok (some ("Lost", 0)))
    ∧ (market.isResolved = false → 0 < market.poolA → 0 < market.poolB →
        b.chosenOption = winLetterOf w market →
        (db.bets.filter (fun x => x.marketId == mid
            && x.chosenOption == winLetterOf w market)).filter
            (fun x => x.userId == uid) = [b] →
        (db.users.find? (fun u => u.id == uid)).isSome = true →
        (∀ u, db.users.find? (fun u => u.id == uid) = some u → u.email ≠ ADMIN_EMAIL) →
        (∀ cid, market.creatorId = some cid → cid ≠ uid) →
        (resolveMarket db mid w).map (fun d => (d.findMarket mid).map (projectPayout b))
          = .ok (some ("Won", winnerPayout b.amount
              (if winLetterOf w market = "A" then market.poolA else market.poolB)
              (if winLetterOf w market = "A" then market.poolB else market.poolA)
              (totalFeeOf (market.poolA + market.poolB)
                (if winLetterOf w market = "A" then market.poolB else market.poolA))))
        ∧ (resolveMarket db mid w).map (fun d => d.balanceOf uid)
            = .ok (db.balanceOf uid + winnerPayout b.amount
                (if winLetterOf w market = "A" then market.poolA else market.poolB)
                (if winLetterOf w market = "A" then market.poolB else market.poolA)
                (totalFeeOf (market.poolA + market.poolB)
                  (if winLetterOf w market = "A" then market.poolB else market.poolA))))
    ∧ (market.isResolved = false → (market.poolA = 0 ∨ market.poolB = 0) →
        (resolveMarket db mid w).map (fun d => (d.findMarket mid).map (projectPayout b))
          = .ok (some ("Refunded", b.amount))) := by
  have hokp : ∀ x : DB,
      Except.map (fun d => (DB.findMarket d mid).map (projectPayout b))
          (Except.ok x : Except RErr DB)
        = Except.ok ((x.findMarket mid).map (projectPayout b)) := fun _ => rfl
  refine ⟨fun hr => projectPayout_pending market b hr, ?_, ?_, ?_⟩
  · intro hr hA hB hb
    rw [resolveMarket_eq_normal db mid w market hm hr (ne_of_gt hA) (ne_of_gt hB), hokp,
      findMarket_normalSettle db mid market (winLetterOf w market) hm, Option.map_some',
      projectPayout_lost market b (winLetterOf w market) (winLetterOf_cases w market) hb]
  · intro hr hA hB hb hone hex hnadmin hncreator
    constructor
    · rw [resolveMarket_eq_normal db mid w market hm hr (ne_of_gt hA) (ne_of_gt hB), hokp,
        findMarket_normalSettle db mid market (winLetterOf w market) hm, Option.map_some',
        projectPayout_won market b (winLetterOf w market) (winLetterOf_cases w market) hb]
    · rw [resolveMarket_eq_normal db mid w market hm hr (ne_of_gt hA) (ne_of_gt hB)]
      have hokb : ∀ x : DB,
          Except.map (fun d => DB.balanceOf d uid) (Except.ok x : Except RErr DB)
            = Except.ok (x.balanceOf uid) := fun _ => rfl
      rw [hokb]
      rw [balanceOf_normalSettle db mid market (winLetterOf w market) uid hex hnadmin hncreator]
      rw [hone]
      simp
  · intro hr h0
    rw [resolveMarket_eq_refund db mid w market hm hr h0, hokp,
      findMarket_refundSettle db mid market hm, Option.map_some',
      projectPayout_refunded market b]

theorem c7_witness :
    (resolveMarket exC3db 1 "a").map
        (fun d => (d.findMarket 1).map (projectPayout
          { id := 1, userId := 1, marketId := 1, chosenOption := "A", amount := 300 }))
      = .ok (some ("Won", 490))
    ∧ (resolveMarket exC3db 1 "a").map (fun d => d.balanceOf 1) = .ok 490 := by
  obtain ⟨-, -, hWon, -⟩ := c7_projection_settlement_agreement exC3db 1 "a" mkYesNo
    { id := 1, userId := 1, marketId := 1, chosenOption := "A", amount := 300 } 1 rfl
  obtain ⟨hproj, hbal⟩ := hWon rfl (by norm_num [mkYesNo]) (by norm_num [mkYesNo]) rfl rfl rfl
    (by
      intro u hu
      rw [show exC3db.users.find? (fun u => u.id == 1)
          = some { id := 1, email := "alice@x", balance := 0 } from rfl] at hu
      injection hu with h2
      rw [← h2]
      decide)
    (by
      intro cid hcid
      exact Option.noConfusion hcid)
  constructor
  · rw [hproj]
    rw [show winLetterOf "a" mkYesNo = "A" from rfl]
    norm_num [winnerPayout, totalFeeOf, mkYesNo]
  · rw [hbal]
    rw [show winLetterOf "a" mkYesNo = "A" from rfl]
    norm_num [winnerPayout, totalFeeOf, exC3db, DB.balanceOf, List.find?, mkYesNo]


/-- Shape of a successful trade: the run of POST /api/bet for an existing
user with sufficient balance, decomposed into its effect on each table. -/
theorem placeBet_success_shape (db : DB) (email : String) (mid : Nat) (chosen : String)
    (amt : ℚ) (thesis : Option String) (bid tid : Nat) (u : User)
    (hu : db.findUser email = some u) (hb : ¬ u.balance < amt) :
    ∃ dbF, placeBet db email mid chosen amt thesis bid tid
        = .ok (dbF, ⟨bid, u.id, mid, chosen, amt⟩)
      ∧ dbF.users = (db.debitUser u.id amt).users
      ∧ dbF.markets = (db.addToPool mid chosen amt).markets
      ∧ dbF.bets = db.bets ++ [⟨bid, u.id, mid, chosen, amt⟩]
      ∧ dbF.theses.length
          = db.theses.length + (if thesisEligible thesis amt then 1 else 0) := by
  cases thesis with
  | none =>
    simp only [placeBet, hu]
    rw [if_neg hb]
    exact ⟨_, rfl, rfl, rfl, rfl, rfl⟩
  | some t =>
    simp only [placeBet, hu]
    rw [if_neg hb]
    refine ⟨_, rfl, ?_, ?_, ?_, ?_⟩
    · split <;> rfl
    · split <;> rfl
    · split <;> rfl
    · split
      · rename_i h
        simp only [thesisEligible, h, if_true, List.length_append, List.length_cons,
          List.length_nil]
        rfl
      · rename_i h
        simp only [thesisEligible]
        rw [if_neg (by simpa using h)]
        rfl

/-- C8: the trade-placement contract.  A missing user fails with
`userNotFound`; insufficient balance fails with `insufficientFunds`
(in both cases no state escapes the rolled-back transaction); on success
the user's balance drops by exactly the stake, the chosen option's pool
rises by exactly the stake, the bet row is appended, and a thesis row is
inserted exactly when the thesis guard (`thesisEligible`: text supplied,
non-empty after trimming, stake ≥ 50) holds. -/
theorem c8_place_bet_contract (db : DB) (email : String) (mid : Nat) (chosen : String)
    (amt : ℚ) (thesis : Option String) (bid tid : Nat) (m : Market)
    (hmkt : db.findMarket mid = some m) :
    (db.findUser email = none →
        placeBet db email mid chosen amt thesis bid tid = .error .userNotFound)
    ∧ (∀ u, db.findUser email = some u → u.balance < amt →
        placeBet db email mid chosen amt thesis bid tid = .error .insufficientFunds)
    ∧ (∀ u, db.findUser email = some u → ¬ u.balance < amt →
        (placeBet db email mid chosen amt thesis bid tid).map
            (fun r => r.1.balanceOfEmail email)
          = .ok (db.balanceOfEmail email - amt)
        ∧ ((chosen = "A" ∨ chosen = "B") →
            (placeBet db email mid chosen amt thesis bid tid).map
                (fun r => r.1.poolOf mid chosen)
              = .ok (db.poolOf mid chosen + amt))
        ∧ (placeBet db email mid chosen amt thesis bid tid).map (fun r => r.1.bets)
            = .ok (db.bets ++ [⟨bid, u.id, mid, chosen, amt⟩])
        ∧ (placeBet db email mid chosen amt thesis bid tid).map
              (fun r => r.1.theses.length)
            = .ok (db.theses.length + (if thesisEligible thesis amt then 1 else 0))) := by
  refine ⟨?_, ?_, ?_⟩
  · intro h
    simp only [placeBet, h]
  · intro u hu hlt
    simp only [placeBet, hu]
    rw [if_pos hlt]
  · intro u hu hnlt
    obtain ⟨dbF, hps, hus, hms, hbs, hth⟩ :=
      placeBet_success_shape db email mid chosen amt thesis bid tid u hu hnlt
    refine ⟨?_, ?_, ?_, ?_⟩
    · rw [hps]
      show Except.ok (dbF.balanceOfEmail email) = _
      rw [show dbF.balanceOfEmail email = (db.debitUser u.id amt).balanceOfEmail email from by
        unfold DB.balanceOfEmail
        rw [hus]]
      rw [balanceOfEmail_debitUser,
        show db.users.find? (fun x => x.email == email) = some u from hu]
      simp
    · intro hAB
      rw [hps]
      show Except.ok (dbF.poolOf mid chosen) = _
      have hfm : dbF.findMarket mid = (db.findMarket mid).map
          (fun x => if x.id == mid then
              (if chosen == "A" then { x with poolA := x.poolA + amt }
               else { x with poolB := x.poolB + amt })
            else x) := by
        unfold DB.findMarket
        rw [hms]
        have h2 := findMarket_addToPool db mid chosen amt mid
        unfold DB.findMarket at h2
        exact h2
      have hid := List.find?_some
        (show db.markets.find? (fun x => x.id == mid) = some m from hmkt)
      unfold DB.poolOf
      rw [hfm, hmkt, Option.map_some']
      simp only [hid, if_true]
      rcases hAB with h | h <;> subst h
      · simp
      · have hBA : (("B" : String) == "A") = false := by decide
        simp [hBA]
    · rw [hps]
      show Except.ok dbF.bets = _
      rw [hbs]
    · rw [hps]
      show Except.ok dbF.theses.length = _
      rw [hth]

theorem c8_witness :
    placeBet exC8db "nobody@x" 1 "A" 10 none 10 20 = .error .userNotFound
    ∧ placeBet exC8db "alice@x" 1 "A" 200 none 10 20 = .error .insufficientFunds
    ∧ (placeBet exC8db "alice@x" 1 "A" 50 (some "thesis!") 10 20).map
        (fun r => r.1.balanceOfEmail "alice@x") = .ok 50
    ∧ (placeBet exC8db "alice@x" 1 "A" 50 (some "thesis!") 10 20).map
        (fun r => r.1.poolOf 1 "A") = .ok 650
    ∧ (placeBet exC8db "alice@x" 1 "A" 50 (some "thesis!") 10 20).map
        (fun r => r.1.theses.length) = .ok 1 := by
  obtain ⟨hnf, hins, hsucc⟩ := c8_place_bet_contract exC8db "alice@x" 1 "A" 50
    (some "thesis!") 10 20 mkYesNo rfl
  obtain ⟨hbal, hpool, -, hthes⟩ := hsucc { id := 1, email := "alice@x", balance := 100 }
    rfl (by norm_num)
  obtain ⟨hnf2, hins2, -⟩ := c8_place_bet_contract exC8db "nobody@x" 1 "A" 10
    none 10 20 mkYesNo rfl
  obtain ⟨-, hins3, -⟩ := c8_place_bet_contract exC8db "alice@x" 1 "A" 200
    none 10 20 mkYesNo rfl
  refine ⟨hnf2 rfl, hins3 { id := 1, email := "alice@x", balance := 100 } rfl (by norm_num),
    ?_, ?_, ?_⟩
  · rw [hbal]
    rw [show exC8db.balanceOfEmail "alice@x" = 100 from rfl]
    norm_num
  · rw [hpool (Or.inl rfl)]
    rw [show exC8db.poolOf 1 "A" = 600 from rfl]
    norm_num
  · rw [hthes]
    rw [show thesisEligible (some "thesis!") 50 = true from by
      simp [thesisEligible]
      decide]
    norm_num [exC8db]

/-- C10: placeBet never checks the market's resolution status or
existence: against an already-resolved market, an existing user with
sufficient balance still succeeds — the balance is debited, the chosen
pool is credited on the (still resolved) market row, and the bet row is
inserted. -/
theorem c10_bet_on_resolved_market (db : DB) (email : String) (mid : Nat) (chosen : String)
    (amt : ℚ) (thesis : Option String) (bid tid : Nat) (u : User) (m : Market)
    (hu : db.findUser email = some u) (hb : ¬ u.balance < amt)
    (hm : db.findMarket mid = some m) (hres : m.isResolved = true) :
    (placeBet db email mid chosen amt thesis bid tid).map
        (fun r => r.1.balanceOfEmail email)
      = .ok (db.balanceOfEmail email - amt)
    ∧ (placeBet db email mid chosen amt thesis bid tid).map (fun r => r.1.findMarket mid)
        = .ok (some (if chosen == "A" then { m with poolA := m.poolA + amt }
                     else { m with poolB := m.poolB + amt }))
    ∧ (placeBet db email mid chosen amt thesis bid tid).map (fun r => r.1.bets)
        = .ok (db.bets ++ [⟨bid, u.id, mid, chosen, amt⟩]) := by
  obtain ⟨dbF, hps, hus, hms, hbs, hth⟩ :=
    placeBet_success_shape db email mid chosen amt thesis bid tid u hu hb
  refine ⟨?_, ?_, ?_⟩
  · rw [hps]
    show Except.ok (dbF.balanceOfEmail email) = _
    rw [show dbF.balanceOfEmail email = (db.debitUser u.id amt).balanceOfEmail email from by
      unfold DB.balanceOfEmail
      rw [hus]]
    rw [balanceOfEmail_debitUser,
      show db.users.find? (fun x => x.email == email) = some u from hu]
    simp
  · rw [hps]
    show Except.ok (dbF.findMarket mid) = _
    have hfm : dbF.findMarket mid = (db.findMarket mid).map
        (fun x => if x.id == mid then
            (if chosen == "A" then { x with poolA := x.poolA + amt }
             else { x with poolB := x.poolB + amt })
          else x) := by
      unfold DB.findMarket
      rw [hms]
      have h2 := findMarket_addToPool db mid chosen amt mid
      unfold DB.findMarket at h2
      exact h2
    have hid := List.find?_some
      (show db.markets.find? (fun x => x.id == mid) = some m from hm)
    rw [hfm, hm, Option.map_some']
    simp only [hid, if_true]
  · rw [hps]
    show Except.ok dbF.bets = _
    rw [hbs]

theorem c10_witness :
    (placeBet exC10db "alice@x" 1 "A" 50 none 10 20).map
        (fun r => r.1.balanceOfEmail "alice@x") = .ok 50
    ∧ (placeBet exC10db "alice@x" 1 "A" 50 none 10 20).map (fun r => r.1.findMarket 1)
        = .ok (some { exC5mkt with poolA := 650 })
    ∧ exC5mkt.isResolved = true := by
  obtain ⟨hbal, hmkt, -⟩ := c10_bet_on_resolved_market exC10db "alice@x" 1 "A" 50 none
    10 20 { id := 1, email := "alice@x", balance := 100 } exC5mkt
    rfl (by norm_num) rfl rfl
  refine ⟨?_, ?_, rfl⟩
  · rw [hbal]
    rw [show exC10db.balanceOfEmail "alice@x" = 100 from rfl]
    norm_num
  · rw [hmkt]
    norm_num [exC5mkt]

end UniStake
